import Mathlib

/-!
Verification of the IFSC lookup service (`main.py`) against its
natural-language specification.

The embedding below translates the Python source into Lean:

* the catalog table `branches` becomes a `List Row`;
* SQL queries become list operations (`DISTINCT` is `dedup`, `ORDER BY`
  is an insertion sort by a bytewise lexicographic order, `LIMIT/OFFSET`
  is `take/drop`, `WHERE` is `filter`);
* Python string functions are modelled character by character over
  `List Char`; the `unicodedata.normalize('NFKD', v).encode('ascii',
  'ignore')` step of `slugify` is modelled as dropping all non-ASCII
  characters.  This is exact on ASCII input; on a diacritic-carrying
  letter the real pipeline keeps the NFKD base letter (Python's
  `slugify("Héllo")` is `"hello"`) while the model drops the whole
  character — a deliberate simplification that leaves ASCII-quantified
  statements untouched, and under which slug-alphabet facts still hold
  for the real pipeline since the kept base letters are ASCII letters.
  The ASCII fragments of the Python character classes `\w`, `\s`,
  `str.isalnum` are spelled out on code points;
* fallible database calls are modelled by `Except`/`Bool` parameters so
  that every exception path of the source is a reachable branch;
* generators (`yield`) become the list of yielded chunks.
-/

/-! ### Character-level groundwork

`Char.toLower`/`Char.toUpper` in Lean core shift the basic latin range
exactly as Python's `str.lower`/`str.upper` do on ASCII.  We compute
their action on code points once and for all.
-/

theorem char_toNat_ofNat {n : Nat} (h : n < 55296) : (Char.ofNat n).toNat = n := by
  rw [Char.ofNat, dif_pos (Or.inl h)]
  simp [Char.ofNatAux, Char.toNat, UInt32.toNat]

theorem char_toNat_lt (c : Char) : c.toNat < 1114112 := by
  rcases c.valid with h | ⟨_, h⟩
  · exact Nat.lt_trans h (by decide)
  · exact h

theorem char_eq_of_toNat_eq {a b : Char} (h : a.toNat = b.toNat) : a = b :=
  Char.eq_of_val_eq (UInt32.eq_of_toBitVec_eq (BitVec.eq_of_toNat_eq h))

theorem toNat_toLower (c : Char) :
    (Char.toLower c).toNat =
      if 65 ≤ c.toNat ∧ c.toNat ≤ 90 then c.toNat + 32 else c.toNat := by
  unfold Char.toLower
  split
  · next h =>
    rw [if_pos (by omega)]
    exact char_toNat_ofNat (by omega)
  · next h =>
    rw [if_neg (by omega)]

theorem toNat_toUpper (c : Char) :
    (Char.toUpper c).toNat =
      if 97 ≤ c.toNat ∧ c.toNat ≤ 122 then c.toNat - 32 else c.toNat := by
  unfold Char.toUpper
  split
  · next h =>
    rw [if_pos (by omega)]
    exact char_toNat_ofNat (by omega)
  · next h =>
    rw [if_neg (by omega)]

theorem toLower_toLower (c : Char) : (Char.toLower c).toLower = c.toLower := by
  apply char_eq_of_toNat_eq
  simp only [toNat_toLower]
  split_ifs <;> omega

theorem toUpper_toUpper (c : Char) : (Char.toUpper c).toUpper = c.toUpper := by
  apply char_eq_of_toNat_eq
  simp only [toNat_toUpper]
  split_ifs <;> omega

/-! ### The shared slug primitive (`slugify`, main.py lines 55-62)

```python
def slugify(value):
    if not value:
        return ""
    value = str(value)
    value = unicodedata.normalize('NFKD', value).encode('ascii', 'ignore').decode('ascii')
    value = re.sub(r'[^\w\s-]', '', value).strip().lower()
    value = re.sub(r'[-\s]+', '-', value)
    return value
```
-/

/-- ASCII fragment of Python's regex class `\w`: `[A-Za-z0-9_]`. -/
def isWordChar (c : Char) : Bool :=
  (65 ≤ c.toNat && c.toNat ≤ 90) || (97 ≤ c.toNat && c.toNat ≤ 122) ||
    (48 ≤ c.toNat && c.toNat ≤ 57) || c.toNat = 95

/-- ASCII fragment of Python's regex class `\s` (also the set stripped by
`str.strip()`): space, `\t`, `\n`, `\v`, `\f`, `\r`. -/
def isPySpace (c : Char) : Bool :=
  c.toNat = 32 || c.toNat = 9 || c.toNat = 10 || c.toNat = 11 ||
    c.toNat = 12 || c.toNat = 13

/-- The class `[-\s]` collapsed by the second regex of `slugify`. -/
def isDashOrSpace (c : Char) : Bool :=
  c.toNat = 45 || isPySpace c

/-- Characters surviving `re.sub(r'[^\w\s-]', '', value)`. -/
def keepChar (c : Char) : Bool :=
  isWordChar c || isPySpace c || c.toNat = 45

/-- `str.strip()`: drop leading and trailing whitespace. -/
def pyStrip (l : List Char) : List Char :=
  ((l.dropWhile isPySpace).reverse.dropWhile isPySpace).reverse

/-- Helper for `re.sub(r'[-\s]+', '-', value)`: the flag records whether
the previous character belonged to the current `[-\s]` run (in which case
further run characters are dropped rather than emitting another dash). -/
def collapseAux : Bool → List Char → List Char
  | _, [] => []
  | true, c :: cs =>
    if isDashOrSpace c then collapseAux true cs
    else c :: collapseAux false cs
  | false, c :: cs =>
    if isDashOrSpace c then '-' :: collapseAux true cs
    else c :: collapseAux false cs

/-- `re.sub(r'[-\s]+', '-', value)`: every maximal run of dashes and
whitespace becomes a single dash. -/
def collapseRuns (l : List Char) : List Char :=
  collapseAux false l

/-- The character pipeline of `slugify` on a non-empty value: drop
non-ASCII (model of NFKD + `encode('ascii','ignore')`; the real
pipeline keeps the NFKD base letter of a diacritic-carrying character,
which is an ASCII letter and flows through the remaining stages like
any other letter), remove `[^\w\s-]`, strip, lowercase, collapse
`[-\s]+` runs to a dash. -/
def slugifyChars (l : List Char) : List Char :=
  collapseRuns ((pyStrip ((l.filter (fun c => c.toNat < 128)).filter keepChar)).map Char.toLower)

/-- `slugify` from main.py: falsy (empty) input yields `""`. -/
def slugify (s : String) : String :=
  if s = "" then "" else ⟨slugifyChars s.data⟩

example : slugify "State Bank of India" = "state-bank-of-india" := by decide
example : slugify "" = "" := by decide
example : slugify "a_b" = "a_b" := by decide
example : slugify "  Hello --  World!  " = "hello-world" := by decide

/-! ### Character-class transfer lemmas -/

theorem toLower_eq_self {c : Char} (h : ¬(65 ≤ c.toNat ∧ c.toNat ≤ 90)) :
    Char.toLower c = c := by
  apply char_eq_of_toNat_eq
  rw [toNat_toLower, if_neg h]

theorem toLower_lt128_iff (c : Char) : (Char.toLower c).toNat < 128 ↔ c.toNat < 128 := by
  rw [toNat_toLower]
  split_ifs <;> omega

theorem isWordChar_toLower (c : Char) : isWordChar c.toLower = isWordChar c := by
  refine Bool.coe_iff_coe.mp ?_
  simp only [isWordChar, toNat_toLower, Bool.or_eq_true, Bool.and_eq_true, decide_eq_true_eq]
  split_ifs <;> omega

theorem isPySpace_toLower (c : Char) : isPySpace c.toLower = isPySpace c := by
  refine Bool.coe_iff_coe.mp ?_
  simp only [isPySpace, toNat_toLower, Bool.or_eq_true, decide_eq_true_eq]
  split_ifs <;> omega

theorem isDash_toLower (c : Char) :
    decide ((Char.toLower c).toNat = 45) = decide (c.toNat = 45) := by
  refine Bool.coe_iff_coe.mp ?_
  simp only [toNat_toLower, decide_eq_true_eq]
  split_ifs <;> omega

theorem keepChar_toLower (c : Char) : keepChar c.toLower = keepChar c := by
  simp only [keepChar, isWordChar_toLower, isPySpace_toLower, isDash_toLower]

theorem isDashOrSpace_toLower (c : Char) : isDashOrSpace c.toLower = isDashOrSpace c := by
  simp only [isDashOrSpace, isPySpace_toLower, isDash_toLower]

theorem isPySpace_false_of_dashOrSpace_false {c : Char} (h : isDashOrSpace c = false) :
    isPySpace c = false := by
  simp only [isDashOrSpace, Bool.or_eq_false_iff] at h
  exact h.2

theorem dash_toNat_of {c : Char} (h : isDashOrSpace c = true) (h2 : isPySpace c = false) :
    c.toNat = 45 := by
  simp only [isDashOrSpace, h2, Bool.or_false, decide_eq_true_eq] at h
  exact h

/-! ### Facts about `collapseAux` -/

theorem mem_collapseAux {c : Char} :
    ∀ (b : Bool) (l : List Char), c ∈ collapseAux b l →
      c.toNat = 45 ∨ (c ∈ l ∧ isDashOrSpace c = false) := by
  intro b l
  induction l generalizing b with
  | nil => intro h; simp [collapseAux] at h
  | cons a tl ih =>
    intro h
    by_cases ha : isDashOrSpace a = true
    · cases b with
      | true =>
        rw [collapseAux, if_pos ha] at h
        rcases ih true h with h45 | ⟨hmem, hds⟩
        · exact Or.inl h45
        · exact Or.inr ⟨List.mem_cons_of_mem _ hmem, hds⟩
      | false =>
        rw [collapseAux, if_pos ha] at h
        simp only [List.mem_cons] at h
        rcases h with rfl | h
        · exact Or.inl (by decide)
        · rcases ih true h with h45 | ⟨hmem, hds⟩
          · exact Or.inl h45
          · exact Or.inr ⟨List.mem_cons_of_mem _ hmem, hds⟩
    · cases b with
      | true =>
        rw [collapseAux, if_neg ha] at h
        simp only [List.mem_cons] at h
        rcases h with rfl | h
        · exact Or.inr ⟨List.mem_cons_self _ _, by simpa using ha⟩
        · rcases ih false h with h45 | ⟨hmem, hds⟩
          · exact Or.inl h45
          · exact Or.inr ⟨List.mem_cons_of_mem _ hmem, hds⟩
      | false =>
        rw [collapseAux, if_neg ha] at h
        simp only [List.mem_cons] at h
        rcases h with rfl | h
        · exact Or.inr ⟨List.mem_cons_self _ _, by simpa using ha⟩
        · rcases ih false h with h45 | ⟨hmem, hds⟩
          · exact Or.inl h45
          · exact Or.inr ⟨List.mem_cons_of_mem _ hmem, hds⟩

theorem head?_collapseAux_true {d : Char} :
    ∀ (l : List Char), (collapseAux true l).head? = some d → isDashOrSpace d = false := by
  intro l
  induction l with
  | nil => intro h; simp [collapseAux] at h
  | cons a tl ih =>
    intro h
    by_cases ha : isDashOrSpace a = true
    · rw [collapseAux, if_pos ha] at h
      exact ih h
    · rw [collapseAux, if_neg ha] at h
      simp only [List.head?_cons, Option.some.injEq] at h
      subst h
      simpa using ha

/-- In the output of the run-collapser no two adjacent characters are both
in the `[-\s]` class. -/
theorem chain'_collapseAux :
    ∀ (b : Bool) (l : List Char),
      List.Chain' (fun a c => isDashOrSpace a = false ∨ isDashOrSpace c = false)
        (collapseAux b l) := by
  intro b l
  induction l generalizing b with
  | nil => simp [collapseAux]
  | cons a tl ih =>
    by_cases ha : isDashOrSpace a = true
    · cases b with
      | true =>
        rw [collapseAux, if_pos ha]
        exact ih true
      | false =>
        rw [collapseAux, if_pos ha, List.chain'_cons']
        exact ⟨fun d hd => Or.inr (head?_collapseAux_true tl hd), ih true⟩
    · cases b with
      | true =>
        rw [collapseAux, if_neg ha, List.chain'_cons']
        exact ⟨fun d _ => Or.inl (by simpa using ha), ih false⟩
      | false =>
        rw [collapseAux, if_neg ha, List.chain'_cons']
        exact ⟨fun d _ => Or.inl (by simpa using ha), ih false⟩

theorem collapseAux_false_of_good :
    ∀ (l : List Char), (∀ c ∈ l, isPySpace c = false) →
      List.Chain' (fun a c => isDashOrSpace a = false ∨ isDashOrSpace c = false) l →
      collapseAux false l = l := by
  intro l
  induction l with
  | nil => intro _ _; rfl
  | cons a tl ih =>
    intro hsp hch
    by_cases ha : isDashOrSpace a = true
    · have ha45 : a.toNat = 45 := dash_toNat_of ha (hsp a (List.mem_cons_self _ _))
      have haeq : a = '-' := char_eq_of_toNat_eq (by rw [ha45]; rfl)
      cases tl with
      | nil =>
        rw [collapseAux, if_pos ha, haeq]
        rfl
      | cons d tl2 =>
        have hd : ¬isDashOrSpace d = true := by
          rcases (List.chain'_cons.mp hch).1 with h | h
          · rw [ha] at h; cases h
          · simp [h]
        have ihtl : collapseAux false (d :: tl2) = d :: tl2 :=
          ih (fun c hc => hsp c (List.mem_cons_of_mem _ hc)) (List.chain'_cons.mp hch).2
        rw [collapseAux, if_neg hd] at ihtl
        have htl2 : collapseAux false tl2 = tl2 := (List.cons.injEq _ _ _ _ ▸ ihtl).2
        rw [collapseAux, if_pos ha, collapseAux, if_neg hd, htl2, haeq]
    · have ihtl : collapseAux false tl = tl := by
        apply ih (fun c hc => hsp c (List.mem_cons_of_mem _ hc))
        exact List.Chain'.tail hch
      rw [collapseAux, if_neg ha, ihtl]

theorem isPySpace_false_of_mem_collapseAux {c : Char} {b : Bool} {l : List Char}
    (h : c ∈ collapseAux b l) : isPySpace c = false := by
  rcases mem_collapseAux b l h with h45 | ⟨_, hds⟩
  · simp [isPySpace, h45]
  · exact isPySpace_false_of_dashOrSpace_false hds

theorem collapseRuns_idem (l : List Char) :
    collapseRuns (collapseRuns l) = collapseRuns l := by
  unfold collapseRuns
  exact collapseAux_false_of_good _
    (fun c hc => isPySpace_false_of_mem_collapseAux hc)
    (chain'_collapseAux false l)

/-! ### The output alphabet of `slugify` -/

theorem dropWhile_eq_self_of_all {p : Char → Bool} {l : List Char}
    (h : ∀ c ∈ l, p c = false) : l.dropWhile p = l := by
  cases l with
  | nil => rfl
  | cons a tl =>
    rw [List.dropWhile_cons_of_neg]
    simp [h a (List.mem_cons_self _ _)]

theorem mem_slugifyChars {c : Char} {l : List Char} (h : c ∈ slugifyChars l) :
    c.toNat < 128 ∧ keepChar c = true ∧ isPySpace c = false ∧ Char.toLower c = c := by
  unfold slugifyChars collapseRuns at h
  rcases mem_collapseAux false _ h with h45 | ⟨hmem, hds⟩
  · refine ⟨by omega, by simp [keepChar, h45], by simp [isPySpace, h45], ?_⟩
    exact toLower_eq_self (by omega)
  · rcases List.mem_map.mp hmem with ⟨a, hstrip, rfl⟩
    have hfil : a ∈ (l.filter (fun c => c.toNat < 128)).filter keepChar := by
      have h1 : a ∈ ((l.filter (fun c => c.toNat < 128)).filter keepChar |>.dropWhile isPySpace).reverse.dropWhile isPySpace := by
        simpa [pyStrip] using hstrip
      have h2 := (List.dropWhile_sublist isPySpace).subset h1
      have h3 := List.mem_reverse.mp h2
      exact (List.dropWhile_sublist isPySpace).subset h3
    have hka : keepChar a = true := (List.mem_filter.mp hfil).2
    have hascii : a.toNat < 128 := by
      have := (List.mem_filter.mp (List.mem_filter.mp hfil).1).2
      simpa using this
    refine ⟨?_, ?_, isPySpace_false_of_dashOrSpace_false hds, ?_⟩
    · exact (toLower_lt128_iff a).mpr hascii
    · rw [keepChar_toLower]; exact hka
    · exact toLower_toLower a

theorem slugifyChars_idem (l : List Char) :
    slugifyChars (slugifyChars l) = slugifyChars l := by
  have hfacts := fun c (hc : c ∈ slugifyChars l) => mem_slugifyChars hc
  conv_lhs => rw [slugifyChars]
  have h1 : (slugifyChars l).filter (fun c => c.toNat < 128) = slugifyChars l := by
    rw [List.filter_eq_self]
    intro a ha
    simpa using (hfacts a ha).1
  rw [h1]
  have h2 : (slugifyChars l).filter keepChar = slugifyChars l := by
    rw [List.filter_eq_self]
    intro a ha
    simp [(hfacts a ha).2.1]
  rw [h2]
  have hnospace : ∀ c ∈ slugifyChars l, isPySpace c = false :=
    fun c hc => (hfacts c hc).2.2.1
  have h3 : pyStrip (slugifyChars l) = slugifyChars l := by
    unfold pyStrip
    rw [dropWhile_eq_self_of_all hnospace]
    rw [dropWhile_eq_self_of_all (fun c hc => hnospace c (List.mem_reverse.mp hc))]
    exact List.reverse_reverse _
  rw [h3]
  have h4 : (slugifyChars l).map Char.toLower = slugifyChars l := by
    conv_rhs => rw [← List.map_id (slugifyChars l)]
    exact List.map_congr_left (fun a ha => (hfacts a ha).2.2.2)
  rw [h4]
  conv_rhs => rw [slugifyChars]
  exact collapseRuns_idem _

/-- `slugify` is idempotent. -/
theorem slugify_idem (s : String) : slugify (slugify s) = slugify s := by
  by_cases hs : s = ""
  · simp [slugify, hs]
  · have hdef : slugify s = ⟨slugifyChars s.data⟩ := by rw [slugify, if_neg hs]
    by_cases h2 : slugify s = ""
    · rw [h2]; rfl
    · conv_lhs => rw [slugify, if_neg h2]
      rw [hdef]
      exact congrArg String.mk (slugifyChars_idem s.data)

/-! ### Case-insensitivity of `slugify`

Two strings "differ only in letter case" when their character lists are
related pointwise by equality after `Char.toLower`.
-/

/-- Pointwise case-equivalence of strings. -/
def CaseEquiv (x y : String) : Prop :=
  List.Forall₂ (fun a b => Char.toLower a = Char.toLower b) x.data y.data

theorem forall2_filter {R : Char → Char → Prop} {p : Char → Bool}
    (hp : ∀ a b, R a b → p a = p b) :
    ∀ {l₁ l₂ : List Char}, List.Forall₂ R l₁ l₂ →
      List.Forall₂ R (l₁.filter p) (l₂.filter p) := by
  intro l₁ l₂ h
  induction h with
  | nil => exact List.Forall₂.nil
  | cons hab htl ih =>
    rename_i a b tl₁ tl₂
    by_cases hpa : p a = true
    · rw [List.filter_cons, if_pos hpa, List.filter_cons, if_pos ((hp a b hab) ▸ hpa)]
      exact List.Forall₂.cons hab ih
    · rw [List.filter_cons, if_neg hpa, List.filter_cons, if_neg ((hp a b hab) ▸ hpa)]
      exact ih

theorem forall2_dropWhile {R : Char → Char → Prop} {p : Char → Bool}
    (hp : ∀ a b, R a b → p a = p b) :
    ∀ {l₁ l₂ : List Char}, List.Forall₂ R l₁ l₂ →
      List.Forall₂ R (l₁.dropWhile p) (l₂.dropWhile p) := by
  intro l₁ l₂ h
  induction h with
  | nil => exact List.Forall₂.nil
  | cons hab htl ih =>
    rename_i a b tl₁ tl₂
    by_cases hpa : p a = true
    · rw [List.dropWhile_cons_of_pos hpa, List.dropWhile_cons_of_pos ((hp a b hab) ▸ hpa)]
      exact ih
    · rw [List.dropWhile_cons_of_neg hpa, List.dropWhile_cons_of_neg (by rw [← hp a b hab]; exact hpa)]
      exact List.Forall₂.cons hab htl

theorem forall2_pyStrip {R : Char → Char → Prop}
    (hp : ∀ a b, R a b → isPySpace a = isPySpace b) {l₁ l₂ : List Char}
    (h : List.Forall₂ R l₁ l₂) : List.Forall₂ R (pyStrip l₁) (pyStrip l₂) := by
  unfold pyStrip
  exact List.rel_reverse (forall2_dropWhile hp (List.rel_reverse (forall2_dropWhile hp h)))

theorem forall2_map_toLower :
    ∀ {l₁ l₂ : List Char},
      List.Forall₂ (fun a b => Char.toLower a = Char.toLower b) l₁ l₂ →
      l₁.map Char.toLower = l₂.map Char.toLower := by
  intro l₁ l₂ h
  induction h with
  | nil => rfl
  | cons hab htl ih => simp only [List.map_cons, hab, ih]

theorem caseEquiv_ascii {a b : Char} (hab : Char.toLower a = Char.toLower b) :
    decide (a.toNat < 128) = decide (b.toNat < 128) := by
  rw [decide_eq_decide, ← toLower_lt128_iff a, ← toLower_lt128_iff b, hab]

theorem caseEquiv_keepChar {a b : Char} (hab : Char.toLower a = Char.toLower b) :
    keepChar a = keepChar b := by
  rw [← keepChar_toLower a, ← keepChar_toLower b, hab]

theorem caseEquiv_isPySpace {a b : Char} (hab : Char.toLower a = Char.toLower b) :
    isPySpace a = isPySpace b := by
  rw [← isPySpace_toLower a, ← isPySpace_toLower b, hab]

theorem slugifyChars_caseEquiv {l₁ l₂ : List Char}
    (h : List.Forall₂ (fun a b => Char.toLower a = Char.toLower b) l₁ l₂) :
    slugifyChars l₁ = slugifyChars l₂ := by
  unfold slugifyChars
  apply congrArg collapseRuns
  apply forall2_map_toLower
  apply forall2_pyStrip (fun a b hab => caseEquiv_isPySpace hab)
  apply forall2_filter (fun a b hab => caseEquiv_keepChar hab)
  exact forall2_filter (fun a b hab => caseEquiv_ascii hab) h

theorem string_eq_empty_iff (s : String) : s = "" ↔ s.data = [] := by
  constructor
  · intro h
    rw [h]
  · intro h
    cases s with
    | mk d =>
      have hd : d = [] := h
      rw [hd]

theorem forall2_nil_iff {R : Char → Char → Prop} {l₁ l₂ : List Char}
    (h : List.Forall₂ R l₁ l₂) : l₁ = [] ↔ l₂ = [] := by
  cases h with
  | nil => simp
  | cons hab htl => simp

/-- `slugify` is case-insensitive: case-equivalent strings get equal slugs. -/
theorem slugify_caseEquiv {x y : String} (h : CaseEquiv x y) :
    slugify x = slugify y := by
  have hempty : x = "" ↔ y = "" := by
    rw [string_eq_empty_iff, string_eq_empty_iff]
    exact forall2_nil_iff h
  by_cases hx : x = ""
  · rw [hx, hempty.mp hx]
  · have hy : ¬y = "" := fun hy => hx (hempty.mpr hy)
    rw [slugify, if_neg hx, slugify, if_neg hy]
    exact congrArg String.mk (slugifyChars_caseEquiv h)

/-- C6 (amended): every character of a slug is a lowercase letter, a
digit, an underscore, or a hyphen.  Python's `\w` keeps underscores, so
the slug alphabet is `[a-z0-9_-]`, not `[a-z0-9-]` as the claim states;
as in the original claim, diacritics are stripped (the NFKD base
letter, an ASCII letter, remains and lowercases like any other letter),
every character outside `[\w\s-]` is removed, and runs of whitespace or
hyphens are collapsed to a single hyphen. -/
theorem mem_slugify_classify {s : String} {c : Char} (h : c ∈ (slugify s).data) :
    (97 ≤ c.toNat ∧ c.toNat ≤ 122) ∨ (48 ≤ c.toNat ∧ c.toNat ≤ 57) ∨
      c.toNat = 95 ∨ c.toNat = 45 := by
  by_cases hs : s = ""
  · rw [slugify, if_pos hs] at h
    exact absurd h (List.not_mem_nil c)
  · rw [slugify, if_neg hs] at h
    obtain ⟨hascii, hkeep, hspace, hfix⟩ := mem_slugifyChars h
    have ht := congrArg Char.toNat hfix
    rw [toNat_toLower] at ht
    simp only [keepChar, isWordChar, isPySpace, Bool.or_eq_true, Bool.and_eq_true,
      decide_eq_true_eq] at hkeep
    simp only [isPySpace, Bool.or_eq_false_iff, decide_eq_false_iff_not] at hspace
    split_ifs at ht <;> omega

/-! ### The branch catalog

A row of the `branches` table.  The source has more columns (`branch`,
`address`, `district`, `centre`, `contact`, `micr`, `swift`, service
flags); the claims under verification only touch these four, so only
they are modelled.
-/

structure Row where
  ifsc : String
  bank : String
  state : String
  city : String
deriving DecidableEq, Repr

/-- Python `str.upper()` (ASCII model), as applied to the inbound code by
`search_code = code.upper()` in both IFSC handlers. -/
def pyUpper (s : String) : String :=
  ⟨s.data.map Char.toUpper⟩

/-- The catalog-side normalization in the SQL of both IFSC handlers:
`REGEXP_REPLACE(UPPER(ifsc), '[^A-Z0-9]', '', 'g')` — uppercase, then
delete every character outside `[A-Z0-9]`. -/
def sqlNormIfsc (s : String) : String :=
  ⟨(s.data.map Char.toUpper).filter
    (fun c => (65 ≤ c.toNat && c.toNat ≤ 90) || (48 ≤ c.toNat && c.toNat ≤ 57))⟩

/-- The WHERE clause shared by `get_ifsc_page` and `get_ifsc_api`
(main.py lines 240-292): `fetchone()` on
`SELECT * FROM branches WHERE REGEXP_REPLACE(UPPER(ifsc), '[^A-Z0-9]', '', 'g') = %s`
with the parameter `code.upper()`.  Note that the inbound code is only
uppercased; it is *not* stripped of non-alphanumeric characters. -/
def lookup_branch (catalog : List Row) (code : String) : Option Row :=
  catalog.find? (fun r => sqlNormIfsc r.ifsc = pyUpper code)

/-- `GET /ifsc/{code}` (main.py lines 240-278): the HTML handler runs the
same query as the API and renders the row (or the not-found state); a
query failure is caught and rendered as an error page with no row. -/
def get_ifsc_page (queryFails : Bool) (catalog : List Row) (code : String) : Option Row :=
  if queryFails then none else lookup_branch catalog code

/-- Responses of the JSON endpoint. -/
inductive ApiResponse where
  | ok (r : Row)
  | err (status : Nat) (detail : String)
deriving DecidableEq, Repr

/-- `GET /api/ifsc/{code}` (main.py lines 281-301).  The dependency
`get_db_conn` raises 503 before the body runs when the pool is missing.
Inside the handler, the whole query *and* the `raise
HTTPException(status_code=404, ...)` for a missing code sit within a
`try:` whose `except Exception` re-raises a 500 — and FastAPI's
`HTTPException` is an `Exception` subclass, so the 404 raised in the
`else:` branch is swallowed and surfaces as 500. -/
def get_ifsc_api (poolAvailable : Bool) (queryFails : Bool)
    (catalog : List Row) (code : String) : ApiResponse :=
  if poolAvailable = false then
    ApiResponse.err 503 "Database connection pool is not available"
  else if queryFails then
    ApiResponse.err 500 "Internal server error"
  else
    match lookup_branch catalog code with
    | some r => ApiResponse.ok r
    | none => ApiResponse.err 500 "Internal server error"

/-- The HTTP status of an `ApiResponse` (200 for a JSON body). -/
def apiStatus : ApiResponse → Nat
  | ApiResponse.ok _ => 200
  | ApiResponse.err s _ => s

theorem toUpper_fix_of_upperDigit {c : Char}
    (h : (65 ≤ c.toNat ∧ c.toNat ≤ 90) ∨ (48 ≤ c.toNat ∧ c.toNat ≤ 57)) :
    Char.toUpper c = c := by
  apply char_eq_of_toNat_eq
  rw [toNat_toUpper, if_neg (by omega)]

/-- `str.upper()` is idempotent on ASCII. -/
theorem pyUpper_idem (s : String) : pyUpper (pyUpper s) = pyUpper s := by
  unfold pyUpper
  apply congrArg String.mk
  rw [List.map_map]
  exact List.map_congr_left (fun a _ => toUpper_toUpper a)

theorem map_eq_self_of_fix {f : Char → Char} {l : List Char}
    (h : ∀ a ∈ l, f a = a) : l.map f = l := by
  induction l with
  | nil => rfl
  | cons a tl ih =>
    rw [List.map_cons, h a (List.mem_cons_self _ _),
      ih (fun b hb => h b (List.mem_cons_of_mem _ hb))]

/-- The SQL-normalized catalog value is fixed by `str.upper()`. -/
theorem pyUpper_sqlNormIfsc (s : String) : pyUpper (sqlNormIfsc s) = sqlNormIfsc s := by
  unfold pyUpper sqlNormIfsc
  apply congrArg String.mk
  apply map_eq_self_of_fix
  intro a ha
  have := (List.mem_filter.mp ha).2
  simp only [Bool.or_eq_true, Bool.and_eq_true, decide_eq_true_eq] at this
  exact toUpper_fix_of_upperDigit this

/-! ### Slug resolution (`get_real_names`, main.py lines 65-95) -/

/-- Python truthiness of an optional string argument (`if bank_slug:`),
false for `None` and for the empty string. -/
def truthy : Option String → Bool
  | none => false
  | some s => s ≠ ""

/-- The `for row in cur.fetchall(): if slugify(...) == slug: ...; break`
scan: first candidate whose slug matches. -/
def resolveSlug (names : List String) (slug : String) : Option String :=
  names.find? (fun n => slugify n = slug)

/-- `SELECT DISTINCT bank FROM branches`. -/
def distinctBanks (catalog : List Row) : List String :=
  (catalog.map Row.bank).dedup

/-- `SELECT DISTINCT state FROM branches WHERE bank = %s`. -/
def distinctStatesForBank (catalog : List Row) (bank : String) : List String :=
  ((catalog.filter (fun r => r.bank = bank)).map Row.state).dedup

/-- `SELECT DISTINCT city FROM branches WHERE bank = %s AND state = %s`. -/
def distinctCitiesForBankState (catalog : List Row) (bank state : String) : List String :=
  ((catalog.filter (fun r => r.bank = bank && r.state = state)).map Row.city).dedup

/-- `get_real_names`: resolve up to three slug levels, each level scanning
only the candidates observed under the previously resolved levels, and
raising `HTTPException(404)` (modelled as `Except.error 404`) when a
requested level has no match.  A level is attempted only when its slug
argument is truthy and all previous levels resolved to truthy names,
mirroring `if state_slug and real_bank_name:` etc. -/
def get_real_names (catalog : List Row) (bankSlug stateSlug citySlug : Option String) :
    Except Nat (Option String × Option String × Option String) :=
  if truthy bankSlug then
    match resolveSlug (distinctBanks catalog) (bankSlug.getD "") with
    | none => Except.error 404
    | some rb =>
      if truthy stateSlug && truthy (some rb) then
        match resolveSlug (distinctStatesForBank catalog rb) (stateSlug.getD "") with
        | none => Except.error 404
        | some rs =>
          if truthy citySlug && truthy (some rb) && truthy (some rs) then
            match resolveSlug (distinctCitiesForBankState catalog rb rs) (citySlug.getD "") with
            | none => Except.error 404
            | some rc => Except.ok (some rb, some rs, some rc)
          else Except.ok (some rb, some rs, none)
      else Except.ok (some rb, none, none)
  else Except.ok (none, none, none)

theorem resolveSlug_mem {names : List String} {slug n : String}
    (h : resolveSlug names slug = some n) : n ∈ names ∧ slugify n = slug := by
  unfold resolveSlug at h
  refine ⟨List.mem_of_find?_eq_some h, ?_⟩
  have := List.find?_some h
  simpa using this

theorem mem_distinctStatesForBank {catalog : List Row} {bank st : String}
    (h : st ∈ distinctStatesForBank catalog bank) :
    ∃ r ∈ catalog, r.bank = bank ∧ r.state = st := by
  unfold distinctStatesForBank at h
  have h2 := List.mem_dedup.mp h
  rcases List.mem_map.mp h2 with ⟨r, hr, rfl⟩
  have h3 := List.mem_filter.mp hr
  refine ⟨r, h3.1, ?_, rfl⟩
  simpa using h3.2

/-! ### The pooled-connection dependency (`get_db_conn`, main.py lines 39-49)

```python
def get_db_conn():
    pool = get_db_pool()
    if pool is None:
        raise HTTPException(status_code=503, ...)
    conn = None
    try:
        conn = pool.getconn()
        yield conn
    finally:
        if conn:
            pool.putconn(conn)
```

The pool is modelled by its number of checked-out connections
(`Option Nat`, `none` when the pool could not be created).  `getconn`
increments that number, `putconn` decrements it; the handler body runs
between the two and can finish normally, report not-found, or raise.
-/

inductive HandlerOutcome where
  | success
  | notFound
  | exception
deriving DecidableEq, Repr

/-- One handler invocation through `get_db_conn`: the returned pair is
(response or propagated error status, pool state after the request).
When `getconnRaises` the acquisition itself fails, `conn` stays `None`,
and the `finally` block skips `putconn`. -/
def get_db_conn_run (pool : Option Nat) (getconnRaises : Bool)
    (outcome : HandlerOutcome) : Except Nat HandlerOutcome × Option Nat :=
  match pool with
  | none => (Except.error 503, none)
  | some checkedOut =>
    if getconnRaises then
      (Except.error 500, some checkedOut)
    else
      let afterAcquire := checkedOut + 1
      let result : Except Nat HandlerOutcome :=
        match outcome with
        | HandlerOutcome.exception => Except.error 500
        | o => Except.ok o
      (result, some (afterAcquire - 1))

/-! ### Ordering used by `ORDER BY` (bytewise text order, C collation) -/

/-- Lexicographic less-or-equal on character lists by code point. -/
def lexLeB : List Char → List Char → Bool
  | [], _ => true
  | _ :: _, [] => false
  | a :: as, b :: bs =>
    if a.toNat < b.toNat then true
    else if b.toNat < a.toNat then false
    else lexLeB as bs

/-- Lexicographic strict-less on character lists by code point. -/
def lexLtB : List Char → List Char → Bool
  | [], [] => false
  | [], _ :: _ => true
  | _ :: _, [] => false
  | a :: as, b :: bs =>
    if a.toNat < b.toNat then true
    else if b.toNat < a.toNat then false
    else lexLtB as bs

theorem lexLeB_total : ∀ l₁ l₂ : List Char, lexLeB l₁ l₂ = true ∨ lexLeB l₂ l₁ = true := by
  intro l₁
  induction l₁ with
  | nil => intro l₂; exact Or.inl rfl
  | cons a as ih =>
    intro l₂
    cases l₂ with
    | nil => exact Or.inr rfl
    | cons b bs =>
      by_cases h1 : a.toNat < b.toNat
      · exact Or.inl (by rw [lexLeB, if_pos h1])
      · by_cases h2 : b.toNat < a.toNat
        · exact Or.inr (by rw [lexLeB, if_pos h2])
        · rcases ih bs with h | h
          · exact Or.inl (by rw [lexLeB, if_neg h1, if_neg h2]; exact h)
          · exact Or.inr (by rw [lexLeB, if_neg h2, if_neg h1]; exact h)

theorem lexLeB_cases {a b : Char} {as bs : List Char}
    (h : lexLeB (a :: as) (b :: bs) = true) :
    a.toNat < b.toNat ∨ (a.toNat = b.toNat ∧ lexLeB as bs = true) := by
  rw [lexLeB] at h
  by_cases hab : a.toNat < b.toNat
  · exact Or.inl hab
  · rw [if_neg hab] at h
    by_cases hba : b.toNat < a.toNat
    · rw [if_pos hba] at h; cases h
    · rw [if_neg hba] at h
      exact Or.inr ⟨by omega, h⟩

theorem lexLeB_trans :
    ∀ l₁ l₂ l₃ : List Char,
      lexLeB l₁ l₂ = true → lexLeB l₂ l₃ = true → lexLeB l₁ l₃ = true := by
  intro l₁
  induction l₁ with
  | nil => intro l₂ l₃ _ _; rfl
  | cons a as ih =>
    intro l₂ l₃ h12 h23
    cases l₂ with
    | nil => rw [lexLeB] at h12; cases h12
    | cons b bs =>
      cases l₃ with
      | nil => rw [lexLeB] at h23; cases h23
      | cons c cs =>
        rcases lexLeB_cases h12 with hab | ⟨hab, htl12⟩ <;>
          rcases lexLeB_cases h23 with hbc | ⟨hbc, htl23⟩
        · rw [lexLeB, if_pos (by omega)]
        · rw [lexLeB, if_pos (by omega)]
        · rw [lexLeB, if_pos (by omega)]
        · rw [lexLeB, if_neg (by omega), if_neg (by omega)]
          exact ih bs cs htl12 htl23

/-- Bytewise text order on strings: the model of SQL `ORDER BY` on a text
column under the C collation. -/
def strLe (a b : String) : Prop :=
  lexLeB a.data b.data = true

instance : DecidableRel strLe :=
  fun a b => inferInstanceAs (Decidable (lexLeB a.data b.data = true))

instance : IsTotal String strLe :=
  ⟨fun a b => lexLeB_total a.data b.data⟩

instance : IsTrans String strLe :=
  ⟨fun a b c => lexLeB_trans a.data b.data c.data⟩

/-- Bytewise strict order on strings. -/
def strLtB (a b : String) : Bool :=
  lexLtB a.data b.data

/-- `ORDER BY bank, state`: lexicographic order on pairs. -/
def pairLe (x y : String × String) : Prop :=
  (strLtB x.1 y.1 || (x.1 = y.1 && lexLeB x.2.data y.2.data)) = true

instance : DecidableRel pairLe :=
  fun x y => inferInstanceAs (Decidable (_ = true))

/-- `ORDER BY bank, state, city`: lexicographic order on triples. -/
def tripleLe (x y : String × String × String) : Prop :=
  (strLtB x.1 y.1 ||
    (x.1 = y.1 && (strLtB x.2.1 y.2.1 ||
      (x.2.1 = y.2.1 && lexLeB x.2.2.data y.2.2.data)))) = true

instance : DecidableRel tripleLe :=
  fun x y => inferInstanceAs (Decidable (_ = true))

/-! ### Sitemap building blocks (main.py lines 303-520) -/

def SITEMAP_PAGE_SIZE : Nat := 20000

def xmlDecl : String := "<?xml version=\"1.0\" encoding=\"UTF-8\"?>\n"

def urlsetOpen : String := "<urlset xmlns=\"http://www.sitemaps.org/schemas/sitemap/0.9\">\n"

def urlsetClose : String := "</urlset>\n"

def sitemapindexOpen : String := "<sitemapindex xmlns=\"http://www.sitemaps.org/schemas/sitemap/0.9\">\n"

def sitemapindexClose : String := "</sitemapindex>\n"

/-- The base URL used by robots.txt and every sub-sitemap generator. -/
def base_url : String := "https://ifsclookup.in"

/-- The base URL of `get_sitemap_index` as written at main.py line 477:
`base_url = "httpss://ifsclookup.in"`. -/
def base_url_index : String := "httpss://ifsclookup.in"

/-- `GET /robots.txt` body (after `.strip()`). -/
def robots_txt : String :=
  "User-agent: *\nAllow: /\nSitemap: " ++ base_url ++ "/sitemap.xml"

/-- `GET /sitemap-static.xml`. -/
def get_sitemap_static : String :=
  xmlDecl ++ urlsetOpen ++
    ("  <url><loc>" ++ base_url ++ "/</loc><priority>1.0</priority></url>\n") ++
    ("  <url><loc>" ++ base_url ++ "/banks</loc><priority>0.8</priority></url>\n") ++
    urlsetClose

/-- `SELECT DISTINCT bank FROM branches ORDER BY bank`. -/
def sortedBanks (catalog : List Row) : List String :=
  List.insertionSort strLe (distinctBanks catalog)

def bankUrlLine (b : String) : String :=
  "  <url><loc>" ++ base_url ++ "/bank/" ++ slugify b ++
    "</loc><priority>0.8</priority></url>\n"

/-- URL entries of `GET /sitemap-banks.xml`: one per distinct bank whose
slug is truthy (`if bank_slug:`). -/
def get_sitemap_banks_entries (catalog : List Row) : List String :=
  (sortedBanks catalog).filterMap
    (fun b => if slugify b ≠ "" then some (bankUrlLine b) else none)

/-- `GET /sitemap-banks.xml`: on a query failure the `except` swallows
the error and the document closes with no entries. -/
def get_sitemap_banks (catalog : List Row) (queryFails : Bool) : String :=
  xmlDecl ++ urlsetOpen ++
    String.join (if queryFails then [] else get_sitemap_banks_entries catalog) ++
    urlsetClose

/-- `SELECT DISTINCT bank, state FROM branches ORDER BY bank, state`. -/
def sortedBankStatePairs (catalog : List Row) : List (String × String) :=
  List.insertionSort pairLe ((catalog.map (fun r => (r.bank, r.state))).dedup)

def stateUrlLine (p : String × String) : String :=
  "  <url><loc>" ++ base_url ++ "/bank/" ++ slugify p.1 ++ "/" ++ slugify p.2 ++
    "</loc><priority>0.7</priority></url>\n"

/-- URL entries of `GET /sitemap-states.xml`: one per distinct
(bank, state) pair with both slugs truthy. -/
def get_sitemap_states_entries (catalog : List Row) : List String :=
  (sortedBankStatePairs catalog).filterMap
    (fun p => if slugify p.1 ≠ "" ∧ slugify p.2 ≠ "" then some (stateUrlLine p) else none)

/-- `SELECT DISTINCT bank, state, city FROM branches ORDER BY bank, state, city`. -/
def sortedTriples (catalog : List Row) : List (String × String × String) :=
  List.insertionSort tripleLe ((catalog.map (fun r => (r.bank, r.state, r.city))).dedup)

/-- The `LIMIT %s OFFSET %s` slice of the cities query for one page. -/
def sitemap_cities_rows (catalog : List Row) (pageSize page : Nat) :
    List (String × String × String) :=
  ((sortedTriples catalog).drop ((page - 1) * pageSize)).take pageSize

def cityUrlLine (t : String × String × String) : String :=
  "  <url><loc>" ++ base_url ++ "/bank/" ++ slugify t.1 ++ "/" ++ slugify t.2.1 ++
    "/" ++ slugify t.2.2 ++ "</loc><priority>0.7</priority></url>\n"

/-- The `if bank_slug and state_slug and city_slug:` guard of the cities
generator. -/
def cityEntry (t : String × String × String) : Option String :=
  if slugify t.1 ≠ "" ∧ slugify t.2.1 ≠ "" ∧ slugify t.2.2 ≠ "" then
    some (cityUrlLine t)
  else none

/-- `sitemap_cities_generator`: the chunks yielded while streaming one
page. `failAfter = some k` models an exception after `k` rows were
consumed; the `finally:` still yields the closing tag. -/
def sitemap_cities_generator (catalog : List Row) (pageSize page : Nat)
    (failAfter : Option Nat) : List String :=
  let rows := sitemap_cities_rows catalog pageSize page
  let processed := match failAfter with
    | none => rows
    | some k => rows.take k
  [xmlDecl, urlsetOpen] ++ processed.filterMap cityEntry ++ [urlsetClose]

/-- `SELECT ifsc FROM branches ORDER BY ifsc` (raw `ifsc`, normalization
happens only after the slice is fetched). -/
def sortedIfscs (catalog : List Row) : List String :=
  List.insertionSort strLe (catalog.map Row.ifsc)

/-- The `LIMIT %s OFFSET %s` slice of the branches query for one page. -/
def sitemap_branches_rows (catalog : List Row) (pageSize page : Nat) : List String :=
  ((sortedIfscs catalog).drop ((page - 1) * pageSize)).take pageSize

/-- ASCII fragment of Python's `str.isalnum`. -/
def isPyAlnum (c : Char) : Bool :=
  (65 ≤ c.toNat && c.toNat ≤ 90) || (97 ≤ c.toNat && c.toNat ≤ 122) ||
    (48 ≤ c.toNat && c.toNat ≤ 57)

/-- `"".join(c for c in row['ifsc'] if c.isalnum()).upper()`. -/
def branchNormalize (s : String) : String :=
  ⟨(s.data.filter isPyAlnum).map Char.toUpper⟩

def branchUrlLine (n : String) : String :=
  "  <url><loc>" ++ base_url ++ "/ifsc/" ++ n ++
    "</loc><priority>0.6</priority></url>\n"

/-- The normalized IFSC values that actually appear as entries of one
branches sitemap page (the `if ifsc:` guard skips empty values). -/
def sitemap_branches_ifscs (catalog : List Row) (pageSize page : Nat) : List String :=
  (sitemap_branches_rows catalog pageSize page).filterMap
    (fun i => if branchNormalize i ≠ "" then some (branchNormalize i) else none)

/-- `sitemap_branches_generator`: the chunks yielded while streaming one
page, with the same failure model as the cities generator. -/
def sitemap_branches_generator (catalog : List Row) (pageSize page : Nat)
    (failAfter : Option Nat) : List String :=
  let rows := sitemap_branches_rows catalog pageSize page
  let processed := match failAfter with
    | none => rows
    | some k => rows.take k
  [xmlDecl, urlsetOpen] ++
    processed.filterMap
      (fun i => if branchNormalize i ≠ "" then some (branchUrlLine (branchNormalize i)) else none) ++
    [urlsetClose]

/-- `math.ceil(total / SITEMAP_PAGE_SIZE)` on naturals. -/
def pageCount (total : Nat) : Nat :=
  (total + SITEMAP_PAGE_SIZE - 1) / SITEMAP_PAGE_SIZE

def indexEntry (path : String) : String :=
  "  <sitemap><loc>" ++ base_url_index ++ path ++ "</loc></sitemap>\n"

/-- The `<sitemap>` lines written by `get_sitemap_index` before the
closing tag.  The two `COUNT` queries can each raise; the three static
entries are written before the first count, the city-page entries before
the second count, and the `except` around the whole block falls through
to the closing tag. -/
def sitemapIndexEntries (totalCities totalBranches : Except Unit Nat) : List String :=
  [indexEntry "/sitemap-static.xml", indexEntry "/sitemap-banks.xml",
    indexEntry "/sitemap-states.xml"] ++
    match totalCities with
    | Except.error _ => []
    | Except.ok tc =>
      (List.range (pageCount tc)).map
          (fun i => indexEntry ("/sitemap-cities-" ++ toString (i + 1) ++ ".xml")) ++
        match totalBranches with
        | Except.error _ => []
        | Except.ok tb =>
          (List.range (pageCount tb)).map
            (fun i => indexEntry ("/sitemap-branches-" ++ toString (i + 1) ++ ".xml"))

/-- `GET /sitemap.xml` (main.py lines 472-520). -/
def get_sitemap_index (totalCities totalBranches : Except Unit Nat) : String :=
  xmlDecl ++ sitemapindexOpen ++
    String.join (sitemapIndexEntries totalCities totalBranches) ++
    sitemapindexClose

/-! ### The claims -/

/-- C5: `slugify` is idempotent, case-insensitive (strings differing only
in letter case have equal slugs), `slugify "State Bank of India" =
"state-bank-of-india"`, and empty input yields the empty string. -/
theorem slugify_idempotent_and_case_insensitive :
    (∀ x : String, slugify (slugify x) = slugify x)
    ∧ (∀ x y : String, CaseEquiv x y → slugify x = slugify y)
    ∧ slugify "State Bank of India" = "state-bank-of-india"
    ∧ slugify "" = "" :=
  ⟨slugify_idem, fun _ _ h => slugify_caseEquiv h, by decide, by decide⟩

/-- C5 witness: the case-insensitivity conjunct at a concrete pair. -/
theorem slugify_case_insensitive_witness :
    slugify "HDFC Bank" = slugify "hdfc bank" :=
  slugify_idempotent_and_case_insensitive.2.1 "HDFC Bank" "hdfc bank"
    (by unfold CaseEquiv; decide)

/-- C6 counterexample: `slugify "a_b" = "a_b"` keeps the underscore,
which is neither alphanumeric nor a hyphen, so a slug does not consist
only of lowercase alphanumerics and hyphens. -/
theorem slugify_keeps_underscore :
    '_' ∈ (slugify "a_b").data ∧ isPyAlnum '_' = false ∧
      decide ('_'.toNat = 45) = false :=
  ⟨by decide, by decide, by decide⟩

/-- C6 witness: the classification at a concrete slug character. -/
theorem slug_alphabet_witness :
    (97 ≤ 'a'.toNat ∧ 'a'.toNat ≤ 122) ∨ (48 ≤ 'a'.toNat ∧ 'a'.toNat ≤ 57) ∨
      'a'.toNat = 95 ∨ 'a'.toNat = 45 :=
  @mem_slugify_classify "a_b" 'a' (by decide)

/-- C1 counterexample: the handlers uppercase the inbound code but do
*not* strip its non-alphanumeric characters, so `"hdfc0001 23"` (which
normalizes to the stored code) misses the row that `"HDFC000123"`
finds — they do not return the identical record. -/
theorem lookup_strips_only_catalog_side :
    lookup_branch [⟨"HDFC000123", "HDFC Bank", "Maharashtra", "Mumbai"⟩] "hdfc0001 23" = none
    ∧ lookup_branch [⟨"HDFC000123", "HDFC Bank", "Maharashtra", "Mumbai"⟩] "HDFC000123"
        = some ⟨"HDFC000123", "HDFC Bank", "Maharashtra", "Mumbai"⟩ :=
  ⟨by decide, by decide⟩

/-- C1 (amended): the lookup shared by `GET /ifsc/{code}` and
`GET /api/ifsc/{code}` uppercases the inbound code (so lookups differing
only in letter case return the identical result) and compares it exactly
against each row's ifsc normalized by uppercasing *and* stripping
non-alphanumerics; an inbound code equal to a row's normalized ifsc
finds that row, but non-alphanumerics are not stripped from the input. -/
theorem lookup_uppercases_input_without_stripping :
    (∀ (catalog : List Row) (code : String),
      lookup_branch catalog (pyUpper code) = lookup_branch catalog code)
    ∧ (∀ r : Row, lookup_branch [r] (sqlNormIfsc r.ifsc) = some r)
    ∧ (∀ (catalog : List Row) (code : String),
      get_ifsc_page false catalog code = lookup_branch catalog code) := by
  refine ⟨?_, ?_, fun _ _ => rfl⟩
  · intro catalog code
    unfold lookup_branch
    rw [pyUpper_idem]
  · intro r
    unfold lookup_branch
    rw [pyUpper_sqlNormIfsc]
    exact List.find?_cons_of_pos _ (by simp)

/-- C2: for an absent code, the `raise HTTPException(status_code=404)`
sits inside the `try:` block of `get_ifsc_api` and FastAPI's
`HTTPException` subclasses `Exception`, so the blanket
`except Exception` catches it and re-raises 500 — the endpoint answers
500 "Internal server error" for a missing code and can never answer
404. -/
theorem api_missing_code_answers_500 :
    get_ifsc_api true false [] "ZZZZ0000000" = ApiResponse.err 500 "Internal server error"
    ∧ (∀ (pa qf : Bool) (catalog : List Row) (code : String),
        apiStatus (get_ifsc_api pa qf catalog code) = 200 ∨
        apiStatus (get_ifsc_api pa qf catalog code) = 500 ∨
        apiStatus (get_ifsc_api pa qf catalog code) = 503) := by
  constructor
  · decide
  · intro pa qf catalog code
    cases pa with
    | false => simp [get_ifsc_api, apiStatus]
    | true =>
      cases qf with
      | true => simp [get_ifsc_api, apiStatus]
      | false =>
        cases h : lookup_branch catalog code with
        | some r => simp [get_ifsc_api, apiStatus, h]
        | none => simp [get_ifsc_api, apiStatus, h]

/-- C7: whenever `get_real_names` resolves a state, the state scan was
restricted to the distinct states observed for the resolved bank, so the
returned state occurs together with that bank in some catalog row — never
a state belonging only to a different bank, even on slug collision. -/
theorem resolve_state_scoped_to_bank :
    ∀ (catalog : List Row) (bs ss cs : Option String) (rb st : String)
      (rc : Option String),
      get_real_names catalog bs ss cs = Except.ok (some rb, some st, rc) →
      ∃ r ∈ catalog, r.bank = rb ∧ r.state = st := by
  intro catalog bs ss cs rb st rc h
  unfold get_real_names at h
  by_cases hb : truthy bs = true
  · rw [if_pos hb] at h
    cases hres : resolveSlug (distinctBanks catalog) (bs.getD "") with
    | none => rw [hres] at h; cases h
    | some rb2 =>
      rw [hres] at h
      dsimp only at h
      by_cases hs : (truthy ss && truthy (some rb2)) = true
      · rw [if_pos hs] at h
        cases hstate : resolveSlug (distinctStatesForBank catalog rb2) (ss.getD "") with
        | none => rw [hstate] at h; cases h
        | some rs =>
          rw [hstate] at h
          dsimp only at h
          have hscoped : ∃ r ∈ catalog, r.bank = rb2 ∧ r.state = rs :=
            mem_distinctStatesForBank (resolveSlug_mem hstate).1
          by_cases hc : (truthy cs && truthy (some rb2) && truthy (some rs)) = true
          · rw [if_pos hc] at h
            cases hcity : resolveSlug (distinctCitiesForBankState catalog rb2 rs) (cs.getD "") with
            | none => rw [hcity] at h; cases h
            | some rcy =>
              rw [hcity] at h
              dsimp only at h
              simp only [Except.ok.injEq, Prod.mk.injEq, Option.some.injEq] at h
              obtain ⟨h1, h2, _⟩ := h
              rw [← h1, ← h2]
              exact hscoped
          · rw [if_neg hc] at h
            simp only [Except.ok.injEq, Prod.mk.injEq, Option.some.injEq] at h
            obtain ⟨h1, h2, _⟩ := h
            rw [← h1, ← h2]
            exact hscoped
      · rw [if_neg hs] at h
        simp only [Except.ok.injEq, Prod.mk.injEq] at h
        exact absurd h.2.1 (by simp)
  · rw [if_neg hb] at h
    simp only [Except.ok.injEq, Prod.mk.injEq] at h
    exact absurd h.1 (by simp)

/-- C7 witness: two banks whose states collide on the slug `goa-x`; the
resolution scoped to `Bank A` returns the state of `Bank A`. -/
theorem resolve_state_scoped_witness :
    ∃ r ∈ [(⟨"I1", "Bank A", "Goa X", "C1"⟩ : Row),
           (⟨"I2", "Bank B", "Goa-X", "C2"⟩ : Row)],
      r.bank = "Bank A" ∧ r.state = "Goa X" :=
  resolve_state_scoped_to_bank _ (some "bank-a") (some "goa-x") none
    "Bank A" "Goa X" none rfl

/-- C8: the pooled connection of `get_db_conn` is returned on every exit
path: after a handler invocation — success, not-found, exception in the
body, a failing `getconn`, or a missing pool — the pool's checked-out
count equals what it was before the request. -/
theorem get_db_conn_releases_on_all_paths :
    ∀ (pool : Option Nat) (getconnRaises : Bool) (outcome : HandlerOutcome),
      (get_db_conn_run pool getconnRaises outcome).2 = pool := by
  intro pool r o
  cases pool with
  | none => rfl
  | some n =>
    cases r with
    | true => rfl
    | false => cases o <;> rfl

/-- C3 counterexample: the branches sitemap orders by the *raw* `ifsc`
column and normalizes after slicing, so the emitted page
(`["AB", "AA"]` for the catalog below) is not ascending in normalized
IFSC — `"A!B"` sorts before `"AA"` bytewise but normalizes to `"AB"`,
which sorts after `"AA"`. -/
theorem branches_page_not_normalized_order :
    sitemap_branches_ifscs
        [⟨"A!B", "B1", "S1", "C1"⟩, ⟨"AA", "B1", "S1", "C1"⟩] 2 1 ++
      sitemap_branches_ifscs
        [⟨"A!B", "B1", "S1", "C1"⟩, ⟨"AA", "B1", "S1", "C1"⟩] 2 2
      = ["AB", "AA"]
    ∧ lexLeB "AB".data "AA".data = false :=
  ⟨by decide, by decide⟩

/-- C3 (amended): the branches sitemap pages are consecutive
`(page-1)*size .. page*size` slices of the catalog ordered by *raw*
IFSC ascending: page `p` followed by page `p+1` is exactly the
contiguous double-width slice (no duplicated and no skipped row),
each page is sorted in the raw bytewise order, and the concatenation of
pages `1..k` is exactly the first `k*size` rows of the ordered catalog;
the emitted entries are the normalized forms of the rows of the slice
whose normalization is non-empty. -/
theorem branches_pages_contiguous_raw_order :
    ∀ (catalog : List Row) (pageSize page k : Nat), 1 ≤ page →
      (sitemap_branches_rows catalog pageSize page ++
          sitemap_branches_rows catalog pageSize (page + 1)
        = ((sortedIfscs catalog).drop ((page - 1) * pageSize)).take (2 * pageSize))
      ∧ List.Sorted strLe (sitemap_branches_rows catalog pageSize page)
      ∧ ((List.range k).map
            (fun i => sitemap_branches_rows catalog pageSize (i + 1))).flatten
          = (sortedIfscs catalog).take (k * pageSize) := by
  intro catalog pageSize page k hpage
  refine ⟨?_, ?_, ?_⟩
  · obtain ⟨n, rfl⟩ : ∃ n, page = n + 1 := ⟨page - 1, by omega⟩
    unfold sitemap_branches_rows
    simp only [Nat.add_sub_cancel]
    rw [show (2 : Nat) * pageSize = pageSize + pageSize from by omega, List.take_add]
    congr 1
    rw [List.drop_drop, Nat.succ_mul]
  · exact List.Pairwise.sublist
      (List.Sublist.trans (List.take_sublist _ _) (List.drop_sublist _ _))
      (List.sorted_insertionSort strLe _)
  · clear hpage
    induction k with
    | zero => simp
    | succ m ih =>
      rw [List.range_succ, List.map_append, List.flatten_append, ih]
      unfold sitemap_branches_rows
      simp only [Nat.add_sub_cancel, List.map_cons, List.map_nil, List.flatten_cons,
        List.flatten_nil, List.append_nil]
      rw [Nat.succ_mul, List.take_add]

/-- C3 witness: the contiguity conjunct at a concrete catalog. -/
theorem branches_pages_contiguous_witness :
    sitemap_branches_rows [⟨"AAAA0000001", "B", "S", "C"⟩] 1 1 ++
      sitemap_branches_rows [⟨"AAAA0000001", "B", "S", "C"⟩] 1 2
      = ((sortedIfscs [⟨"AAAA0000001", "B", "S", "C"⟩]).drop ((1 - 1) * 1)).take (2 * 1) :=
  (branches_pages_contiguous_raw_order [⟨"AAAA0000001", "B", "S", "C"⟩] 1 1 0
    (by decide)).1

/-- C4: every streamed sitemap document ends with its closing root tag on
every exit path — `GET /sitemap.xml` starts with the XML declaration and
ends with `</sitemapindex>` even when either row-count query raises, and
the paginated branch/city generators always yield `</urlset>` last, even
when the row query fails after any number of rows. -/
theorem streamed_documents_close_root_tag :
    ∀ (tc tb : Except Unit Nat) (catalog : List Row) (ps page : Nat)
      (fa : Option Nat),
      xmlDecl.data <+: (get_sitemap_index tc tb).data
      ∧ sitemapindexClose.data <:+ (get_sitemap_index tc tb).data
      ∧ (sitemap_branches_generator catalog ps page fa).getLast? = some urlsetClose
      ∧ (sitemap_cities_generator catalog ps page fa).getLast? = some urlsetClose := by
  intro tc tb catalog ps page fa
  refine ⟨?_, ?_, ?_, ?_⟩
  · unfold get_sitemap_index
    rw [String.data_append, String.data_append, String.data_append,
      List.append_assoc, List.append_assoc]
    exact List.prefix_append _ _
  · unfold get_sitemap_index
    rw [String.data_append]
    exact List.suffix_append _ _
  · simp only [sitemap_branches_generator]
    exact List.getLast?_concat _
  · simp only [sitemap_cities_generator]
    exact List.getLast?_concat _

/-- Helper for C9: every line of the sitemap index is `indexEntry` at
some sub-sitemap path. -/
theorem mem_sitemapIndexEntries {tc tb : Except Unit Nat} {e : String}
    (h : e ∈ sitemapIndexEntries tc tb) : ∃ p, e = indexEntry p := by
  unfold sitemapIndexEntries at h
  rcases List.mem_append.mp h with h | h
  · simp only [List.mem_cons, List.not_mem_nil, or_false] at h
    rcases h with rfl | rfl | rfl
    · exact ⟨_, rfl⟩
    · exact ⟨_, rfl⟩
    · exact ⟨_, rfl⟩
  · cases tc with
    | error u => simp at h
    | ok tcv =>
      rcases List.mem_append.mp h with h | h
      · rcases List.mem_map.mp h with ⟨i, _, rfl⟩
        exact ⟨_, rfl⟩
      · cases tb with
        | error u => simp at h
        | ok tbv =>
          rcases List.mem_map.mp h with ⟨i, _, rfl⟩
          exact ⟨_, rfl⟩

/-- Helper for C9: the first 22 characters of every index entry. -/
theorem indexEntry_take22 (p : String) :
    (indexEntry p).data.take 22 = ("  <sitemap><loc>httpss" : String).data := by
  have hdata : (indexEntry p).data =
      ("  <sitemap><loc>httpss" : String).data ++
        (("://ifsclookup.in" : String).data ++
          (p.data ++ ("</loc></sitemap>\n" : String).data)) := by
    unfold indexEntry base_url_index
    rw [String.data_append, String.data_append, String.data_append]
    rw [(by decide : ("  <sitemap><loc>" : String).data ++
        ("httpss://ifsclookup.in" : String).data
        = ("  <sitemap><loc>httpss" : String).data ++ ("://ifsclookup.in" : String).data)]
    simp [List.append_assoc]
  rw [hdata, List.take_append_of_le_length (by decide)]
  decide

/-- Helper for C9: the first 22 characters of a URL built on the correct
base. -/
theorem httpsUrl_take22 (p : String) :
    ("  <sitemap><loc>" ++ base_url ++ p : String).data.take 22
      = ("  <sitemap><loc>https:" : String).data := by
  have hdata : ("  <sitemap><loc>" ++ base_url ++ p : String).data =
      ("  <sitemap><loc>https:" : String).data ++
        (("//ifsclookup.in" : String).data ++ p.data) := by
    unfold base_url
    rw [String.data_append, String.data_append]
    rw [(by decide : ("  <sitemap><loc>" : String).data ++
        ("https://ifsclookup.in" : String).data
        = ("  <sitemap><loc>https:" : String).data ++ ("//ifsclookup.in" : String).data)]
    simp [List.append_assoc]
  rw [hdata, List.take_append_of_le_length (by decide)]
  decide

/-- C9: every `<sitemap><loc>` entry of `GET /sitemap.xml` is built on
the malformed base `httpss://ifsclookup.in`, while robots.txt and every
sub-sitemap generator use `https://ifsclookup.in`; no index entry can
textually coincide with a `<sitemap><loc>` line built on the correct
base, as they already differ within their first 22 characters. -/
theorem sitemap_index_wrong_base :
    (∀ (tc tb : Except Unit Nat) (e : String), e ∈ sitemapIndexEntries tc tb →
        e.data.take 22 = ("  <sitemap><loc>httpss" : String).data)
    ∧ (∀ p : String, ("  <sitemap><loc>" ++ base_url ++ p : String).data.take 22
        = ("  <sitemap><loc>https:" : String).data)
    ∧ decide (("  <sitemap><loc>httpss" : String).data
        = ("  <sitemap><loc>https:" : String).data) = false
    ∧ robots_txt = "User-agent: *\nAllow: /\nSitemap: https://ifsclookup.in/sitemap.xml"
    ∧ base_url = "https://ifsclookup.in"
    ∧ base_url_index = "httpss://ifsclookup.in" := by
  refine ⟨?_, httpsUrl_take22, by decide, by decide, rfl, rfl⟩
  intro tc tb e h
  obtain ⟨p, rfl⟩ := mem_sitemapIndexEntries h
  exact indexEntry_take22 p

/-- C9 witness: the first conjunct at a concrete index entry. -/
theorem sitemap_index_wrong_base_witness :
    (indexEntry "/sitemap-static.xml").data.take 22
      = ("  <sitemap><loc>httpss" : String).data :=
  sitemap_index_wrong_base.1 (Except.error ()) (Except.error ())
    (indexEntry "/sitemap-static.xml") (by decide)

/-- Option-returning guards distribute as a filter followed by a map. -/
theorem filterMap_guard_eq {α β : Type} (p : α → Prop) [DecidablePred p]
    (f : α → β) :
    ∀ l : List α,
      l.filterMap (fun x => if p x then some (f x) else none)
        = (l.filter (fun x => p x)).map f := by
  intro l
  induction l with
  | nil => rfl
  | cons a tl ih =>
    by_cases hpa : p a
    · simp [List.filterMap_cons, List.filter_cons, hpa, ih]
    · simp [List.filterMap_cons, List.filter_cons, hpa, ih]

/-- C10: every sitemap generator silently skips a row whose required
slugs (or normalized IFSC) include an empty string: the emitted entries
of the banks, states, cities and branches sitemaps are exactly the rows
whose guard values are all non-empty, mapped to their URL lines — a row
with an empty slug contributes nothing and raises nothing. -/
theorem sitemaps_skip_empty_slugs :
    ∀ (catalog : List Row) (ps page : Nat),
      get_sitemap_banks_entries catalog
        = ((sortedBanks catalog).filter (fun b => slugify b ≠ "")).map bankUrlLine
      ∧ get_sitemap_states_entries catalog
        = ((sortedBankStatePairs catalog).filter
            (fun p => slugify p.1 ≠ "" ∧ slugify p.2 ≠ "")).map stateUrlLine
      ∧ (sitemap_cities_rows catalog ps page).filterMap cityEntry
        = ((sitemap_cities_rows catalog ps page).filter
            (fun t => slugify t.1 ≠ "" ∧ slugify t.2.1 ≠ "" ∧ slugify t.2.2 ≠ "")).map
            cityUrlLine
      ∧ sitemap_branches_ifscs catalog ps page
        = ((sitemap_branches_rows catalog ps page).filter
            (fun i => branchNormalize i ≠ "")).map branchNormalize := by
  intro catalog ps page
  refine ⟨?_, ?_, ?_, ?_⟩
  · exact filterMap_guard_eq _ _ _
  · exact filterMap_guard_eq _ _ _
  · exact filterMap_guard_eq _ _ _
  · exact filterMap_guard_eq _ _ _
